import Mathlib

/-!
# Verification of the gotham middleware pipeline (`src/middleware/pipeline.rs`)

Shallow embedding of the pipeline core:

* `Middleware` instances are continuation-passing functions
  `state → request → chain → future` (Rust: `Middleware::call`), where a
  "future" is its eventual value `Except (state × error) (state × response)`
  (Rust: `Box<HandlerFuture>`, i.e. a future of `(State, Response)` failing
  with `(State, HandlerError)`).
* A factory (`NewMiddleware` / `NewHandler`) may perform ambient effects when
  constructing its instance (Rust: `fn new_middleware(&self) -> io::Result<_>`
  may do I/O), so it is embedded as a state transformer over an abstract
  world type `ω` returning `Except ε instance` together with the new world.
* The builder's HList of factories `(M3, (M2, (M1, ())))` is embedded as the
  cons list `NewPipeline`, and a spawned `(I3, (I2, (I1, ())))` as the cons
  list `PInstance`, mirroring the `(T, U)` / `()` recursive tuple encoding.

Type parameters throughout: `ω` the ambient world of construction effects,
`σ` the `State` context, `ρ` the `Request`, `β` the `Response`, `ε` the
error type.
-/

set_option autoImplicit false

namespace Gotham

universe u

variable {ω σ ρ β ε : Type}

/-- The eventual value of a `HandlerFuture`: success is `(State, Response)`,
failure is `(State, HandlerError)`. -/
def HandlerFut (σ β ε : Type) : Type :=
  Except (σ × ε) (σ × β)

/-- The `Chain` continuation passed to a middleware:
`FnOnce(State, Request) -> Box<HandlerFuture>`. -/
def ChainFn (σ ρ β ε : Type) : Type :=
  σ → ρ → HandlerFut σ β ε

/-- A middleware instance, by its `Middleware::call` behaviour:
`call(self, state, req, chain) -> Box<HandlerFuture>`. -/
def Middleware (σ ρ β ε : Type) : Type :=
  σ → ρ → ChainFn σ ρ β ε → HandlerFut σ β ε

/-- A handler instance, by its `Handler::handle` behaviour. -/
def Handler (σ ρ β ε : Type) : Type :=
  σ → ρ → HandlerFut σ β ε

/-- A middleware factory: `NewMiddleware::new_middleware(&self)` returns
`io::Result<Instance>` and may perform ambient effects, embedded as a world
transformer. The factory value itself is immutable (`&self`). -/
def NewMiddleware (ω σ ρ β ε : Type) : Type :=
  ω → Except ε (Middleware σ ρ β ε) × ω

/-- A handler factory: `NewHandler::new_handler(&self) -> io::Result<Instance>`. -/
def NewHandler (ω σ ρ β ε : Type) : Type :=
  ω → Except ε (Handler σ ρ β ε) × ω

/-- The recursive tuple of middleware factories held by a `PipelineBuilder`:
`()` is `nil` and `(T, U)` (head factory, tail) is `cons`. The head is the
most recently added factory (the list is in reverse append order). -/
inductive NewPipeline (ω σ ρ β ε : Type) where
  | nil : NewPipeline ω σ ρ β ε
  | cons (nm : NewMiddleware ω σ ρ β ε) (tail : NewPipeline ω σ ρ β ε) :
      NewPipeline ω σ ρ β ε

/-- The recursive tuple of middleware instances for one request:
`()` is `nil` and `(T::Instance, U::Instance)` is `cons`, in the same
(reversed) order as the `NewPipeline` it was spawned from. -/
inductive PInstance (σ ρ β ε : Type) where
  | nil : PInstance σ ρ β ε
  | cons (m : Middleware σ ρ β ε) (tail : PInstance σ ρ β ε) :
      PInstance σ ρ β ε

/-- Embeds `NewPipelineInstance::new_pipeline_instance`: recursively instantiate
every factory, head (most recently added) first, aborting at the first
failure, preserving the reversed order in the result.
Rust: `Ok((nm.new_middleware()?, tail.new_pipeline_instance()?))` for the
`(T, U)` case and `Ok(())` for `()`. -/
def new_pipeline_instance :
    NewPipeline ω σ ρ β ε → ω → Except ε (PInstance σ ρ β ε) × ω
  | .nil, w => (.ok .nil, w)
  | .cons nm tail, w =>
    match nm w with
    | (.error e, w₁) => (.error e, w₁)
    | (.ok m, w₁) =>
      match new_pipeline_instance tail w₁ with
      | (.error e, w₂) => (.error e, w₂)
      | (.ok p, w₂) => (.ok (.cons m p), w₂)

/-- Embeds `PipelineInstance::call_recurse`: the `()` case invokes the accumulated
function; the `(T, U)` case recurses on the tail with the function
`move |state, req| m.call(state, req, f)`, so the head of the (reversed)
instance list ends up innermost, adjacent to the handler. -/
def PInstance.call_recurse :
    PInstance σ ρ β ε → σ → ρ → ChainFn σ ρ β ε → HandlerFut σ β ε
  | .nil, s, r, f => f s r
  | .cons m p, s, r, f => p.call_recurse s r (fun s' r' => m s' r' f)

/-- Embeds `PipelineInstance::call`: start the recursion with a function invoking
the handler directly. -/
def PInstance.call (p : PInstance σ ρ β ε) (s : σ) (r : ρ)
    (handler : Handler σ ρ β ε) : HandlerFut σ β ε :=
  p.call_recurse s r (fun s' r' => handler s' r')

/-- Embeds `PipelineBuilder`: wraps the recursive factory tuple `t`. -/
structure PipelineBuilder (ω σ ρ β ε : Type) where
  t : NewPipeline ω σ ρ β ε

/-- Embeds `Pipeline`: a sealed builder. -/
structure Pipeline (ω σ ρ β ε : Type) where
  builder : PipelineBuilder ω σ ρ β ε

/-- Embeds `new_pipeline()`: the empty builder with `t` the empty tuple. -/
def new_pipeline : PipelineBuilder ω σ ρ β ε :=
  ⟨.nil⟩

/-- Embeds `PipelineBuilder::add`: cons the new factory onto the FRONT of the
tuple list, `PipelineBuilder { t: (m, self.t) }`. -/
def PipelineBuilder.add (b : PipelineBuilder ω σ ρ β ε)
    (m : NewMiddleware ω σ ρ β ε) : PipelineBuilder ω σ ρ β ε :=
  ⟨.cons m b.t⟩

/-- Embeds `PipelineBuilder::build`: seal the builder. -/
def PipelineBuilder.build (b : PipelineBuilder ω σ ρ β ε) :
    Pipeline ω σ ρ β ε :=
  ⟨b⟩

/-- Embeds `Pipeline::call`: create the handler instance first, then the pipeline
instance, then dispatch; either construction failure yields
`future::err((state, e))` carrying the original context. -/
def Pipeline.call (pl : Pipeline ω σ ρ β ε)
    (new_handler : NewHandler ω σ ρ β ε) (s : σ) (r : ρ) (w : ω) :
    HandlerFut σ β ε × ω :=
  match new_handler w with
  | (.error e, w₁) => (.error (s, e), w₁)
  | (.ok handler, w₁) =>
    match new_pipeline_instance pl.builder.t w₁ with
    | (.error e, w₂) => (.error (s, e), w₂)
    | (.ok p, w₂) => (p.call s r handler, w₂)

/-! ## Derived forms used to state the claims -/

/-- A pure middleware factory: constructs a fixed instance, no world
effects, never fails (e.g. the source's `Ok(self.clone())` factories). -/
def pureNM (m : Middleware σ ρ β ε) : NewMiddleware ω σ ρ β ε :=
  fun w => (.ok m, w)

/-- A pure handler factory. -/
def pureNH (h : Handler σ ρ β ε) : NewHandler ω σ ρ β ε :=
  fun w => (.ok h, w)

/-- Append a list of factories to a builder in list order, as in
`new_pipeline().add(f₁).add(f₂)...`. -/
def appendAll (b : PipelineBuilder ω σ ρ β ε)
    (fs : List (NewMiddleware ω σ ρ β ε)) : PipelineBuilder ω σ ρ β ε :=
  fs.foldl PipelineBuilder.add b

/-- The pipeline built by appending the given middleware (as pure
factories) in list order. -/
def plOf (ms : List (Middleware σ ρ β ε)) : Pipeline ω σ ρ β ε :=
  (appendAll new_pipeline (ms.map pureNM)).build

/-- The factory tuple holding the given factories in tuple order
(head = first element). -/
def NewPipeline.ofList :
    List (NewMiddleware ω σ ρ β ε) → NewPipeline ω σ ρ β ε
  | [] => .nil
  | f :: fs => .cons f (NewPipeline.ofList fs)

/-- Tuple append. -/
def NewPipeline.app :
    NewPipeline ω σ ρ β ε → NewPipeline ω σ ρ β ε → NewPipeline ω σ ρ β ε
  | .nil, u => u
  | .cons f t, u => .cons f (NewPipeline.app t u)

/-- The instance tuple holding the given instances in tuple order. -/
def PInstance.ofList : List (Middleware σ ρ β ε) → PInstance σ ρ β ε
  | [] => .nil
  | m :: ms => .cons m (PInstance.ofList ms)

/-- The nested continuation over a list of middleware in execution order:
`chainOf [m₁, ..., mₙ] f` invokes `m₁` with the chain
`chainOf [m₂, ..., mₙ] f`, and `chainOf [] f = f`. -/
def chainOf : List (Middleware σ ρ β ε) → ChainFn σ ρ β ε → ChainFn σ ρ β ε
  | [], f => f
  | m :: ms, f => fun s r => m s r (chainOf ms f)

/-- Reference sequential spawn: instantiate the factories of a list left to
right, threading the world, aborting at the first failure. Used to state
in which order `new_pipeline_instance` invokes the factories. -/
def spawnSeq :
    List (NewMiddleware ω σ ρ β ε) → ω →
      Except ε (List (Middleware σ ρ β ε)) × ω
  | [], w => (.ok [], w)
  | nf :: fs, w =>
    match nf w with
    | (.error e, w₁) => (.error e, w₁)
    | (.ok m, w₁) =>
      match spawnSeq fs w₁ with
      | (.error e, w₂) => (.error e, w₂)
      | (.ok ms, w₂) => (.ok (m :: ms), w₂)

/-- A wrapping middleware: applies `pre` to the context, delegates, and
applies `post` to the context of a successful result (used to observe
pre/post-processing order). -/
def wrapMw (pre post : σ → σ) : Middleware σ ρ β ε :=
  fun s r chain =>
    match chain (pre s) r with
    | .ok (s', b) => .ok (post s', b)
    | .error e => .error e

/-- All `pre` transformations of a wrap list, first element first. -/
def preAll (ps : List ((σ → σ) × (σ → σ))) (s : σ) : σ :=
  ps.foldl (fun a p => p.1 a) s

/-- All `post` transformations of a wrap list, LAST element first
(innermost unwinds first), first element last. -/
def postAll (ps : List ((σ → σ) × (σ → σ))) (s : σ) : σ :=
  ps.foldr (fun p a => p.2 a) s

/-- A short-circuiting middleware: never invokes its chain, returns `v`'s
result directly. -/
def shortC (v : σ → ρ → HandlerFut σ β ε) : Middleware σ ρ β ε :=
  fun s r _chain => v s r

/-! ### The source's concrete test middleware (`mod tests`)

The test models `State` as holding one `Number` bin, so `σ := Int` here:
the bin's current value. -/

/-- Test middleware `Number`: `state.put(self.clone())`, i.e. overwrite the
bin with the factory's value, then delegate. -/
def numberMw (value : Int) : Middleware Int ρ β ε :=
  fun _s r chain => chain value r

/-- Test middleware `Addition`:
`state.borrow_mut::<Number>().unwrap().value += self.value`, then
delegate. -/
def additionMw (value : Int) : Middleware Int ρ β ε :=
  fun s r chain => chain (s + value) r

/-- Test middleware `Multiplication`:
`state.borrow_mut::<Number>().unwrap().value *= self.value`, then
delegate. -/
def multiplicationMw (value : Int) : Middleware Int ρ β ε :=
  fun s r chain => chain (s * value) r

/-- The test's `handler`: reads the `Number` bin and returns it as the
response body. -/
def numberHandler : Handler Int ρ Int ε :=
  fun s _r => .ok (s, s)

/-- The pipeline of `pipeline_ordering_test`:
`new_pipeline().add(Number(0)).add(Addition(1)).add(Multiplication(2))
.add(Addition(1)).add(Multiplication(2)).add(Addition(2))
.add(Multiplication(3)).build()`. All test factories are pure clones
(`Ok(self.clone())` / `Ok(Addition { ..*self })`). -/
def orderingPipeline : Pipeline ω Int ρ Int ε :=
  (((((((new_pipeline.add
    (pureNM (numberMw 0))).add
    (pureNM (additionMw 1))).add
    (pureNM (multiplicationMw 2))).add
    (pureNM (additionMw 1))).add
    (pureNM (multiplicationMw 2))).add
    (pureNM (additionMw 2))).add
    (pureNM (multiplicationMw 3))).build

/-! ### Instrumented factories, for observing construction order -/

/-- A handler factory that logs the event `0` to the world and yields a
trivial handler. -/
def logHandlerFactory : NewHandler (List Nat) Unit Unit Unit Nat :=
  fun w => (.ok fun s _r => .ok (s, ()), w ++ [0])

/-- A middleware factory that logs the event `k` to the world and yields a
pass-through middleware. -/
def logMwFactory (k : Nat) : NewMiddleware (List Nat) Unit Unit Unit Nat :=
  fun w => (.ok fun s r chain => chain s r, w ++ [k])

/-- A middleware factory that logs the event `k` and fails with error `k`. -/
def failMwFactory (k : Nat) : NewMiddleware (List Nat) Unit Unit Unit Nat :=
  fun w => (.error k, w ++ [k])

/-- The pipeline `new_pipeline().add(logMwFactory 1).add(logMwFactory 2).build()`. -/
def logPipeline : Pipeline (List Nat) Unit Unit Unit Nat :=
  ((new_pipeline.add (logMwFactory 1)).add (logMwFactory 2)).build

/-- The builder with logging factories appended in the order 1, 2. -/
def spawnOrderBuilder : PipelineBuilder (List Nat) Unit Unit Unit Nat :=
  (new_pipeline.add (logMwFactory 1)).add (logMwFactory 2)

/-- The builder with factories failing with errors 1, 2 appended in that
order. -/
def failBuilder : PipelineBuilder (List Nat) Unit Unit Unit Nat :=
  (new_pipeline.add (failMwFactory 1)).add (failMwFactory 2)

/-! ### The source's factory values, as data (for the factory-purity claim)

The repository's `NewMiddleware` impls (`Number`, `Addition`,
`Multiplication`) all construct their instance as a pure clone of the
factory value: `Ok(self.clone())` resp. `Ok(Addition { ..*self })`. -/

/-- The factory values defined in the source. -/
inductive SrcFactory where
  | number (value : Int)
  | addition (value : Int)
  | multiplication (value : Int)

/-- The middleware instance a source factory constructs (its clone). -/
def SrcFactory.instance_of : SrcFactory → Middleware Int ρ β ε
  | .number v => numberMw v
  | .addition v => additionMw v
  | .multiplication v => multiplicationMw v

/-- The `new_middleware` of a source factory: `Ok(self.clone())` — yields the
clone, touches nothing. -/
def SrcFactory.new_middleware (f : SrcFactory) : NewMiddleware ω Int ρ β ε :=
  fun w => (.ok f.instance_of, w)

/-- The builder appending the given source factories in list order. -/
def srcBuilder (l : List SrcFactory) : PipelineBuilder ω Int ρ β ε :=
  appendAll new_pipeline (l.map SrcFactory.new_middleware)

/-! ### Concrete values for witnesses -/

/-- A concrete handler over `Nat` data. -/
def natHandler : Handler Nat Nat Nat Nat :=
  fun s r => .ok (s + r, 7)

/-- A second, observably different concrete handler. -/
def natHandlerB : Handler Nat Nat Nat Nat :=
  fun _s _r => .error (0, 1)

/-- A middleware factory failing with error 9. -/
def failNM9 : NewMiddleware Nat Nat Nat Nat Nat :=
  fun w => (.error 9, w)

/-- A middleware factory failing with error 8. -/
def failNM8 : NewMiddleware Nat Nat Nat Nat Nat :=
  fun w => (.error 8, w)

/-- A handler factory failing with error 5 (and bumping the world). -/
def failNH5 : NewHandler Nat Nat Nat Nat Nat :=
  fun w => (.error 5, w + 1)

/-! ## Builder, spawn and dispatch lemmas -/

theorem NewPipeline.app_assoc (t u v : NewPipeline ω σ ρ β ε) :
    NewPipeline.app (NewPipeline.app t u) v
      = NewPipeline.app t (NewPipeline.app u v) := by
  induction t with
  | nil => rfl
  | cons f t ih => simp [NewPipeline.app, ih]

theorem NewPipeline.ofList_append (l₁ l₂ : List (NewMiddleware ω σ ρ β ε)) :
    NewPipeline.ofList (l₁ ++ l₂)
      = NewPipeline.app (NewPipeline.ofList l₁) (NewPipeline.ofList l₂) := by
  induction l₁ with
  | nil => rfl
  | cons f l ih => simp [NewPipeline.ofList, NewPipeline.app, ih]

/-- Appending factories `fs` to a builder conses them in reverse onto the
front of the internal tuple. -/
theorem appendAll_t (b : PipelineBuilder ω σ ρ β ε)
    (fs : List (NewMiddleware ω σ ρ β ε)) :
    (appendAll b fs).t
      = NewPipeline.app (NewPipeline.ofList fs.reverse) b.t := by
  induction fs generalizing b with
  | nil => rfl
  | cons f fs ih =>
    show (appendAll (b.add f) fs).t = _
    rw [ih]
    simp [List.reverse_cons, NewPipeline.ofList_append, NewPipeline.app_assoc,
      NewPipeline.ofList, NewPipeline.app, PipelineBuilder.add]

/-- Spawning a factory tuple (`new_pipeline_instance`) is the sequential spawn of
its factories, head first (i.e. in reverse append order). -/
theorem new_pipeline_instance_ofList (l : List (NewMiddleware ω σ ρ β ε))
    (w : ω) :
    new_pipeline_instance (NewPipeline.ofList l) w
      = ((spawnSeq l w).1.map PInstance.ofList, (spawnSeq l w).2) := by
  induction l generalizing w with
  | nil => rfl
  | cons nf fs ih =>
    show new_pipeline_instance (.cons nf (NewPipeline.ofList fs)) w = _
    rw [new_pipeline_instance]
    cases hnf : nf w with
    | mk res w₁ =>
      cases res with
      | error e => simp [spawnSeq, hnf, Except.map]
      | ok m =>
        simp only [spawnSeq, hnf, ih w₁]
        cases hsp : spawnSeq fs w₁ with
        | mk res₂ w₂ =>
          cases res₂ with
          | error e => simp [Except.map]
          | ok ms => simp [PInstance.ofList, Except.map]

/-- Sequential spawn of pure factories: yields exactly the wrapped
instances, with the world untouched. -/
theorem spawnSeq_pure (ms : List (Middleware σ ρ β ε)) (w : ω) :
    spawnSeq (ms.map pureNM) w = (.ok ms, w) := by
  induction ms generalizing w with
  | nil => rfl
  | cons m ms ih => simp [spawnSeq, pureNM, ih]

theorem chainOf_append (l₁ l₂ : List (Middleware σ ρ β ε))
    (f : ChainFn σ ρ β ε) :
    chainOf (l₁ ++ l₂) f = chainOf l₁ (chainOf l₂ f) := by
  induction l₁ with
  | nil => rfl
  | cons m l ih => simp [chainOf, ih]

/-- Dispatch (`call_recurse`) over a (reversed) instance tuple builds the nested
continuation of the instances in reverse tuple order, i.e. execution
order. -/
theorem call_recurse_ofList (l : List (Middleware σ ρ β ε)) (s : σ) (r : ρ)
    (f : ChainFn σ ρ β ε) :
    (PInstance.ofList l).call_recurse s r f = chainOf l.reverse f s r := by
  induction l generalizing s r f with
  | nil => rfl
  | cons m ms ih =>
    show (PInstance.ofList ms).call_recurse s r (fun s' r' => m s' r' f) = _
    rw [ih, List.reverse_cons, chainOf_append]
    rfl

theorem NewPipeline.app_nil (t : NewPipeline ω σ ρ β ε) :
    NewPipeline.app t .nil = t := by
  induction t with
  | nil => rfl
  | cons f t ih => simp [NewPipeline.app, ih]

/-- The factory tuple of `plOf ms` is the reversed list of pure factories. -/
theorem plOf_t (ms : List (Middleware σ ρ β ε)) :
    (plOf (ω := ω) ms).builder.t
      = NewPipeline.ofList (ms.reverse.map pureNM) := by
  show (appendAll new_pipeline (ms.map pureNM)).t = _
  rw [appendAll_t]
  show NewPipeline.app (NewPipeline.ofList (ms.map pureNM).reverse)
      NewPipeline.nil = _
  rw [NewPipeline.app_nil, List.map_reverse]

/-- Dispatch of a pipeline built from pure factories in append order is the
nested continuation in that same order applied to the initial context and
request, with the world untouched. -/
theorem dispatch_pure (ms : List (Middleware σ ρ β ε))
    (h : Handler σ ρ β ε) (s : σ) (r : ρ) (w : ω) :
    Pipeline.call (plOf ms) (pureNH h) s r w
      = (chainOf ms (fun s' r' => h s' r') s r, w) := by
  simp only [Pipeline.call, pureNH, plOf_t, new_pipeline_instance_ofList,
    spawnSeq_pure, Except.map, PInstance.call, call_recurse_ofList,
    List.reverse_reverse]

/-- Spawning a pipeline of pure factories yields exactly the instance tuple
in reverse append order, with the world untouched. -/
theorem spawn_pure (ms : List (Middleware σ ρ β ε)) (w : ω) :
    new_pipeline_instance (appendAll new_pipeline (ms.map pureNM)).t w
      = (.ok (PInstance.ofList ms.reverse), w) := by
  rw [appendAll_t]
  show new_pipeline_instance
      (NewPipeline.app (NewPipeline.ofList (ms.map pureNM).reverse)
        NewPipeline.nil) w = _
  rw [NewPipeline.app_nil, ← List.map_reverse, new_pipeline_instance_ofList,
    spawnSeq_pure]
  rfl

theorem preAll_nil (s : σ) : preAll [] s = s := rfl

theorem preAll_cons (p : (σ → σ) × (σ → σ)) (ps : List ((σ → σ) × (σ → σ)))
    (s : σ) : preAll (p :: ps) s = preAll ps (p.1 s) := rfl

theorem postAll_nil (s : σ) : postAll [] s = s := rfl

theorem postAll_cons (p : (σ → σ) × (σ → σ)) (ps : List ((σ → σ) × (σ → σ)))
    (s : σ) : postAll (p :: ps) s = p.2 (postAll ps s) := rfl

/-- The nested continuation of a list of wrapping middleware applies the
`pre`s left to right on the way in and the `post`s right to left on the way
out of a successful result. -/
theorem chainOf_wrap (ps : List ((σ → σ) × (σ → σ))) (f : ChainFn σ ρ β ε)
    (s : σ) (r : ρ) :
    chainOf (ps.map fun p => wrapMw p.1 p.2) f s r
      = match f (preAll ps s) r with
        | .ok (s', b) => .ok (postAll ps s', b)
        | .error e => .error e := by
  induction ps generalizing s with
  | nil =>
    show f s r = _
    simp only [preAll_nil, postAll_nil]
    cases hf : f s r with
    | ok x => obtain ⟨s', b⟩ := x; rfl
    | error e => rfl
  | cons p ps ih =>
    show wrapMw p.1 p.2 s r (chainOf (ps.map fun q => wrapMw q.1 q.2) f) = _
    simp only [wrapMw, ih (p.1 s), preAll_cons, postAll_cons]
    cases hf : f (preAll ps (p.1 s)) r with
    | ok x => obtain ⟨s', b⟩ := x; rfl
    | error e => rfl

/-! ## The claims -/

/-- Claim C1: in a pipeline of wrapping middleware appended in order
M1..Mn, the first-appended middleware is the outermost wrapper (its own
return value is the dispatch result, and it receives the raw context and
request), the last-appended middleware sits directly adjacent to the
handler (its continuation is the bare handler invocation), pre-processing
effects are applied in append order, and post-processing effects of a
successful result are applied in exact reverse (LIFO) order. -/
theorem pipeline_order_invariant (ps : List ((σ → σ) × (σ → σ)))
    (h : Handler σ ρ β ε) (s : σ) (r : ρ) (w : ω) :
    Pipeline.call (plOf (ps.map fun p => wrapMw p.1 p.2)) (pureNH h) s r w
      = ((match h (preAll ps s) r with
          | .ok (s', b) => .ok (postAll ps s', b)
          | .error e => .error e), w)
    ∧ (∀ (m : Middleware σ ρ β ε) (ms : List (Middleware σ ρ β ε)),
        Pipeline.call (plOf (m :: ms)) (pureNH h) s r w
          = (m s r (chainOf ms fun s' r' => h s' r'), w))
    ∧ (∀ (ms : List (Middleware σ ρ β ε)) (m : Middleware σ ρ β ε),
        Pipeline.call (plOf (ms ++ [m])) (pureNH h) s r w
          = (chainOf ms (fun s' r' => m s' r' fun s'' r'' => h s'' r'')
              s r, w)) := by
  refine ⟨?_, fun m ms => ?_, fun ms m => ?_⟩
  · rw [dispatch_pure, chainOf_wrap]
  · rw [dispatch_pure]
    rfl
  · rw [dispatch_pure, chainOf_append]
    rfl

/-- Claim C2: the pipeline of `pipeline_ordering_test` — seed 0, then
Add 1, Mul 2, Add 1, Mul 2, Add 2, Mul 3 appended in that order — yields a
final context value of 24 (and a response reading that value) for any
initial context, request and world. -/
theorem pipeline_ordering_test (s₀ : Int) (r : ρ) (w : ω) :
    Pipeline.call (orderingPipeline (ω := ω) (ρ := ρ) (ε := ε))
      (pureNH numberHandler) s₀ r w
      = (.ok (24, 24), w) := by
  rfl

/-- Claim C3: a pipeline with zero middleware dispatches directly to the
handler, passing the context and request exactly as supplied. -/
theorem zero_middleware_pass_through (nhf : NewHandler ω σ ρ β ε)
    (hd : Handler σ ρ β ε) (s : σ) (r : ρ) (w w₁ : ω)
    (h1 : nhf w = (.ok hd, w₁)) :
    Pipeline.call (PipelineBuilder.build new_pipeline) nhf s r w
      = (hd s r, w₁) := by
  simp only [Pipeline.call, h1]
  rfl

/-- Witness for C3. -/
theorem zero_middleware_pass_through_witness :
    Pipeline.call (PipelineBuilder.build new_pipeline) (pureNH natHandler)
      5 3 0 = (.ok (8, 7), 0) :=
  zero_middleware_pass_through (pureNH natHandler) natHandler 5 3 0 0 rfl

/-- Claim C4: if spawning the pipeline instance fails (some middleware
factory's construction call fails), the dispatch result is a failed future
carrying the original context alongside the error; no middleware and no
handler behaviour contributes to the result (the conclusion is independent
of the handler `hd` and of every constructed instance). -/
theorem construction_failure_abort (t : NewPipeline ω σ ρ β ε)
    (nhf : NewHandler ω σ ρ β ε) (hd : Handler σ ρ β ε) (s : σ) (r : ρ)
    (w w₁ w₂ : ω) (e : ε) (h1 : nhf w = (.ok hd, w₁))
    (h2 : new_pipeline_instance t w₁ = (.error e, w₂)) :
    Pipeline.call (PipelineBuilder.build ⟨t⟩) nhf s r w
      = (.error (s, e), w₂) := by
  simp only [Pipeline.call, PipelineBuilder.build, h1, h2]

/-- Witness for C4. -/
theorem construction_failure_abort_witness :
    Pipeline.call (PipelineBuilder.build ⟨NewPipeline.cons failNM9 .nil⟩)
      (pureNH natHandler) 5 3 0 = (.error (5, 9), 0) :=
  construction_failure_abort (NewPipeline.cons failNM9 .nil)
    (pureNH natHandler) natHandler 5 3 0 0 0 9 rfl rfl

/-- Claim C5: the terminal handler is instantiated before any middleware
factory is invoked (with instrumented factories, the handler factory's
event `0` is logged first, before any middleware factory event), and if
handler instantiation fails the dispatch aborts immediately with the error
and the original context — the result is independent of the pipeline `pl`,
so no middleware factory is invoked and no middleware runs. -/
theorem handler_instantiated_first (pl : Pipeline ω σ ρ β ε)
    (nhf : NewHandler ω σ ρ β ε) (s : σ) (r : ρ) (w w₁ : ω) (e : ε)
    (h1 : nhf w = (.error e, w₁)) :
    Pipeline.call pl nhf s r w = (.error (s, e), w₁)
    ∧ (Pipeline.call logPipeline logHandlerFactory () () []).2
        = [0, 2, 1] := by
  constructor
  · simp only [Pipeline.call, h1]
  · rfl

/-- Witness for C5. -/
theorem handler_instantiated_first_witness :
    Pipeline.call (PipelineBuilder.build new_pipeline) failNH5 4 3 0
        = (.error (4, 5), 1)
    ∧ (Pipeline.call logPipeline logHandlerFactory () () []).2
        = [0, 2, 1] :=
  handler_instantiated_first (PipelineBuilder.build new_pipeline) failNH5
    4 3 0 1 5 rfl

/-- Counterexample to claim C6 as stated: in the pipeline built by
appending the instrumented factories 1 and 2 in that order, spawning logs
the construction events as `[2, 1]` — the LAST-appended factory's
`new_middleware` runs first, not the first-appended one; and with both
factories failing, the surfaced error is that of the last-appended factory
(error 2), not the first-appended (error 1). -/
theorem spawn_order_counterexample :
    (new_pipeline_instance spawnOrderBuilder.t []).2 = [2, 1]
    ∧ (new_pipeline_instance spawnOrderBuilder.t []).2 ≠ [1, 2]
    ∧ (new_pipeline_instance failBuilder.t []).1 = .error 2
    ∧ (new_pipeline_instance failBuilder.t []).1 ≠ .error 1 := by
  refine ⟨rfl, by decide, rfl, fun h => ?_⟩
  rw [show (new_pipeline_instance failBuilder.t []).1
      = Except.error 2 from rfl] at h
  exact absurd (Except.error.inj h) (by decide)

/-- Claim C6 (amended): spawning the pipeline instance invokes the
factories' `new_middleware` calls in REVERSE append order — the
last-appended factory first, the first-appended factory last — aborting at
the first failure encountered in that reverse order with that error:
spawning the builder `new_pipeline().add(f₁)...add(fₙ)` is exactly the
sequential left-to-right spawn of the reversed factory list. -/
theorem spawn_reverse_append_order (fs : List (NewMiddleware ω σ ρ β ε))
    (w : ω) :
    new_pipeline_instance (appendAll new_pipeline fs).t w
      = ((spawnSeq fs.reverse w).1.map PInstance.ofList,
         (spawnSeq fs.reverse w).2) := by
  rw [appendAll_t]
  show new_pipeline_instance
      (NewPipeline.app (NewPipeline.ofList fs.reverse) NewPipeline.nil) w
      = _
  rw [NewPipeline.app_nil, new_pipeline_instance_ofList]

/-- Claim C7: if the middleware at position k never invokes its
continuation, everything appended after it — the middleware `rest` and the
handler — never executes (the dispatch result is identical for any `rest`,
`rest'`, `h`, `h'`), and when the short-circuiting middleware is outermost
the dispatch result is exactly the value it returned. -/
theorem short_circuit (pre rest rest' : List (Middleware σ ρ β ε))
    (v : σ → ρ → HandlerFut σ β ε) (h h' : Handler σ ρ β ε) (s : σ) (r : ρ)
    (w : ω) :
    Pipeline.call (plOf (pre ++ shortC v :: rest)) (pureNH h) s r w
      = Pipeline.call (plOf (pre ++ shortC v :: rest')) (pureNH h') s r w
    ∧ Pipeline.call (plOf (shortC v :: rest)) (pureNH h) s r w
      = (v s r, w) := by
  have key : ∀ (l : List (Middleware σ ρ β ε)) (f : ChainFn σ ρ β ε),
      chainOf (shortC v :: l) f = fun s' r' => v s' r' := fun _ _ => rfl
  constructor
  · rw [dispatch_pure, dispatch_pure, chainOf_append, chainOf_append,
      key, key]
  · rw [dispatch_pure, key]

/-- Claim C8: spawning a pipeline instance from the source's factories
(`Number`, `Addition`, `Multiplication`, whose `new_middleware` is
`Ok(self.clone())`) leaves the factories and the world unchanged and
yields instances determined by the factory values alone: a second spawn
after an arbitrary intervening world change `g` (e.g. effects performed
through the first spawn's instances) yields the very same instances. -/
theorem factory_purity (l : List SrcFactory) (w : ω) (g : ω → ω) :
    new_pipeline_instance (srcBuilder (ρ := ρ) (β := β) (ε := ε) l).t w
      = (.ok (PInstance.ofList (l.reverse.map SrcFactory.instance_of)), w)
    ∧ (new_pipeline_instance (srcBuilder (ρ := ρ) (β := β) (ε := ε) l).t
        (g w)).1
      = (new_pipeline_instance (srcBuilder (ρ := ρ) (β := β) (ε := ε) l).t
          w).1 := by
  have key : ∀ w' : ω,
      new_pipeline_instance (srcBuilder (ρ := ρ) (β := β) (ε := ε) l).t w'
        = (.ok (PInstance.ofList (l.reverse.map SrcFactory.instance_of)),
           w') := by
    intro w'
    have hlist :
        l.map (SrcFactory.new_middleware (ω := ω) (ρ := ρ) (β := β)
          (ε := ε))
          = (l.map SrcFactory.instance_of).map pureNM := by
      rw [List.map_map]
      rfl
    show new_pipeline_instance
        (appendAll new_pipeline (l.map SrcFactory.new_middleware)).t w' = _
    rw [hlist, spawn_pure, ← List.map_reverse]
  exact ⟨key w, by rw [key (g w), key w]⟩

/-- Claim C9: the dispatcher passes the request (and context) through its
chain-construction code unchanged — the first-appended middleware receives
exactly the context and request supplied to dispatch, and for an empty
pipeline the handler does; the dispatcher itself neither inspects nor
transforms the request or the resulting response. -/
theorem request_pass_through (m : Middleware σ ρ β ε)
    (ms : List (Middleware σ ρ β ε)) (h : Handler σ ρ β ε) (s : σ) (r : ρ)
    (w : ω) :
    Pipeline.call (plOf (m :: ms)) (pureNH h) s r w
      = (m s r (chainOf ms fun s' r' => h s' r'), w)
    ∧ Pipeline.call (plOf ([] : List (Middleware σ ρ β ε))) (pureNH h)
        s r w = (h s r, w) := by
  constructor
  · rw [dispatch_pure]
    rfl
  · rw [dispatch_pure]
    rfl

/-- Claim C10: when the handler is constructed successfully but spawning
the pipeline instance fails, the constructed handler is discarded without
its `handle` ever being invoked: the dispatch result is the failed future
with the original context and the spawn error, identical for any two
handlers. -/
theorem handler_discarded_on_spawn_failure (t : NewPipeline ω σ ρ β ε)
    (hd hd' : Handler σ ρ β ε) (s : σ) (r : ρ) (w w₂ : ω) (e : ε)
    (h2 : new_pipeline_instance t w = (.error e, w₂)) :
    Pipeline.call (PipelineBuilder.build ⟨t⟩) (pureNH hd) s r w
      = Pipeline.call (PipelineBuilder.build ⟨t⟩) (pureNH hd') s r w
    ∧ Pipeline.call (PipelineBuilder.build ⟨t⟩) (pureNH hd) s r w
      = (.error (s, e), w₂) := by
  have key : ∀ hh : Handler σ ρ β ε,
      Pipeline.call (PipelineBuilder.build ⟨t⟩) (pureNH hh) s r w
        = (.error (s, e), w₂) := by
    intro hh
    simp only [Pipeline.call, PipelineBuilder.build, pureNH, h2]
  exact ⟨(key hd).trans (key hd').symm, key hd⟩

/-- Witness for C10. -/
theorem handler_discarded_on_spawn_failure_witness :
    Pipeline.call (PipelineBuilder.build ⟨NewPipeline.cons failNM8 .nil⟩)
        (pureNH natHandler) 2 3 0
      = Pipeline.call (PipelineBuilder.build ⟨NewPipeline.cons failNM8 .nil⟩)
        (pureNH natHandlerB) 2 3 0
    ∧ Pipeline.call (PipelineBuilder.build ⟨NewPipeline.cons failNM8 .nil⟩)
        (pureNH natHandler) 2 3 0 = (.error (2, 8), 0) :=
  handler_discarded_on_spawn_failure (NewPipeline.cons failNM8 .nil)
    natHandler natHandlerB 2 3 0 0 8 rfl

end Gotham
